import Mathlib

/-!
Shallow embedding of the PyTables `CArray` core (`tables/carray.py`) and the
namespace-dispatch layer (`tables/core/group.py`), with theorems settling the
spec claims about them.

Conventions of the embedding:
* Python machine integers are arbitrary-precision, modelled as `Nat` (all the
  quantities involved — shapes, row indices, buffer sizes — are non-negative
  after range normalisation).
* A Python `raise` is modelled by `Except`: `Except.error e` is a raised
  exception `e`, `Except.ok v` a normal return of `v`.
* Calls into collaborators that live outside the two source files
  (`self._createCArray`, `self._calc_chunkshape`, `self._calc_nrowsinbuf`,
  the destination writes `object[start3:stop3] = ...`) are taken as function
  parameters, so that theorems quantify over every possible collaborator
  behaviour.  Side effects on collaborators (backend `create`, `close`) are
  recorded in explicit trace fields.
* `self._processRangeRead(start, stop, step)` (defined in `tables/leaf.py`,
  outside the two files) normalises a range against the array extent; on an
  already-normalised range `0 ≤ start ≤ stop`, `1 ≤ step` it is the identity.
  The copy theorems are stated over such normalised ranges.
-/

namespace PyTables

/-- Ceiling division `⌈n / k⌉` on naturals, written the way Python computes
`len(range(a, b, k))`: `(n + k - 1) / k`. -/
def cdiv (n k : Nat) : Nat := (n + k - 1) / k

/-- Number of elements of Python `range(start, stop, step)` for a positive
`step` (this is what `len(xrange(start, stop, step))` returns in the source,
clamped to `0` when `start ≥ stop` — `Nat` subtraction gives that clamp). -/
def rangeLen (start stop step : Nat) : Nat := cdiv (stop - start) step

/-- The list of values produced by Python `range(start, stop, step)` for a
positive `step`: `start, start + step, ...`, while below `stop`. -/
def pyRange (start stop step : Nat) : List Nat :=
  (List.range (rangeLen start stop step)).map (fun i => start + i * step)

/-- Python `min(l)` over a list of naturals; `none` models the `ValueError`
raised by `min` on an empty sequence. -/
def pyMin : List Nat → Option Nat
  | [] => none
  | x :: xs =>
    match pyMin xs with
    | none => some x
    | some m => some (Nat.min x m)

/-- Element type descriptor: itemsize in bytes plus the atom's own shape
(`atom.shape` in the source; must be `()`, i.e. `[]`, for this core). -/
structure Atom where
  itemsize : Nat
  atomShape : List Nat
deriving DecidableEq

/-- Default version string stamped on new CARRAY objects (`obversion`). -/
def obversion : String := "1.0"

/-- Errors raised by the `CArray` creation code paths.  Each constructor
stands for one distinct `raise` site in `carray.py`; `backend e` is an
exception propagating out of the backend `self._createCArray` call. -/
inductive BackendErr
  | diskFull
  | permissionDenied
deriving DecidableEq

inductive PyErr
  | multidimAtom
  | shapeNoneValueError
  | rankMismatchValueError
  | chunkshapeZeroDimValueError
  | chunkshapeEmptyMinValueError
  | shapeZeroDimValueError
  | shapeEmptyMinValueError
  | backend (e : BackendErr)
deriving DecidableEq

/-- Validated constructor state after `CArray.__init__` in new mode:
`self.shape` and `self._v_chunkshape`. -/
structure InitState where
  shape : List Nat
  vChunkshape : Option (List Nat)
deriving DecidableEq

/-- New-mode validation sequence of `CArray.__init__` (`carray.py` lines
153–183), in source order: multidimensional-atom check, `shape is None`
check, then — only when a `chunkshape` is supplied — the rank-equality check
followed by the `min(chunkshape) < 1` check.  (The `isinstance`/type checks
of the source are enforced by the Lean types themselves.)  No backend or
planner call happens here. -/
def carrayInitNew (atom : Atom) (shape : Option (List Nat))
    (chunkshape : Option (List Nat)) : Except PyErr InitState :=
  if atom.atomShape ≠ [] then .error .multidimAtom
  else
    match shape with
    | none => .error .shapeNoneValueError
    | some s =>
      match chunkshape with
      | none => .ok ⟨s, none⟩
      | some cs =>
        if s.length ≠ cs.length then .error .rankMismatchValueError
        else
          match pyMin cs with
          | none => .error .chunkshapeEmptyMinValueError
          | some m =>
            if m < 1 then .error .chunkshapeZeroDimValueError
            else .ok ⟨s, some cs⟩

deriving instance DecidableEq for Except

/-- Trace of one run of the creation path: how many times the chunk-geometry
planner (`_calc_chunkshape` / `_calc_nrowsinbuf`) was invoked, how many times
the backend `create` (`self._createCArray`) was invoked, the `flush`
arguments of the `self.close` calls made (in order; `false` is `flush=0`),
and the outcome. -/
structure CreateTrace where
  plannerCalls : Nat
  backendCreateCalls : Nat
  closeFlushArgs : List Bool
  outcome : Except PyErr Nat
deriving DecidableEq

/-- Embedding of `CArray._g_create_common` (`carray.py` lines 201–226):
compute the chunkshape with the planner when none was supplied, compute
`nrowsinbuf`, then try `self._createCArray`; on any exception, call
`self.close(flush=0)` and re-raise the same exception. -/
def gCreateCommon (vChunkshape : Option (List Nat))
    (calcChunkshape : Unit → List Nat) (calcNrowsinbuf : List Nat → Nat)
    (createCArray : Except BackendErr Nat) : CreateTrace :=
  let csPlan : List Nat × Nat :=
    match vChunkshape with
    | none => (calcChunkshape (), 1)
    | some c => (c, 0)
  let _nbuf := calcNrowsinbuf csPlan.1
  match createCArray with
  | .ok oid =>
    { plannerCalls := csPlan.2 + 1, backendCreateCalls := 1,
      closeFlushArgs := [], outcome := .ok oid }
  | .error e =>
    { plannerCalls := csPlan.2 + 1, backendCreateCalls := 1,
      closeFlushArgs := [false], outcome := .error (.backend e) }

/-- Embedding of `CArray._g_create` (`carray.py` lines 190–198): the
`min(self.shape) < 1` precondition check, then `_g_create_common`. -/
def gCreate (shape : List Nat) (vChunkshape : Option (List Nat))
    (calcChunkshape : Unit → List Nat) (calcNrowsinbuf : List Nat → Nat)
    (createCArray : Except BackendErr Nat) : CreateTrace :=
  match pyMin shape with
  | none =>
    { plannerCalls := 0, backendCreateCalls := 0, closeFlushArgs := [],
      outcome := .error .shapeEmptyMinValueError }
  | some m =>
    if m < 1 then
      { plannerCalls := 0, backendCreateCalls := 0, closeFlushArgs := [],
        outcome := .error .shapeZeroDimValueError }
    else gCreateCommon vChunkshape calcChunkshape calcNrowsinbuf createCArray

/-- Whole new-mode creation pipeline: `CArray.__init__` validation followed
by `_g_create` (which the node machinery invokes to materialise storage). -/
def createNewCArray (atom : Atom) (shape : Option (List Nat))
    (chunkshape : Option (List Nat))
    (calcChunkshape : Unit → List Nat) (calcNrowsinbuf : List Nat → Nat)
    (createCArray : Except BackendErr Nat) : CreateTrace :=
  match carrayInitNew atom shape chunkshape with
  | .error e =>
    { plannerCalls := 0, backendCreateCalls := 0, closeFlushArgs := [],
      outcome := .error e }
  | .ok st =>
    gCreate st.shape st.vChunkshape calcChunkshape calcNrowsinbuf createCArray

/-- One iteration of the `_g_copyWithStats` loop (`carray.py` lines
248–261): the source window `[start2, stop2)` (stepped by `step`) and the
destination window `[start3, stop3)`. -/
structure CopyStep where
  start2 : Nat
  stop2 : Nat
  start3 : Nat
  stop3 : Nat
deriving DecidableEq

/-- The sequence of copy-loop iterations of `_g_copyWithStats`, exactly as
computed by the source: `start2` ranges over
`range(start, stop, step*nrowsinbuf)`; `stop2 = start2 + step*nrowsinbuf`
clipped to `stop`; `start3 = (start2 - start) / step`;
`stop3 = start3 + nrowsinbuf` clipped to `destExtent`
(`shape[maindim]` of the freshly built destination). -/
def copyStepAt (start stop step nrowsinbuf destExtent start2 : Nat) : CopyStep :=
  let stop2 := if start2 + step * nrowsinbuf > stop then stop
               else start2 + step * nrowsinbuf
  let start3 := (start2 - start) / step
  let stop3 := if start3 + nrowsinbuf > destExtent then destExtent
               else start3 + nrowsinbuf
  ⟨start2, stop2, start3, stop3⟩

def copySteps (start stop step nrowsinbuf destExtent : Nat) : List CopyStep :=
  (pyRange start stop (step * nrowsinbuf)).map
    (copyStepAt start stop step nrowsinbuf destExtent)

/-- Source-array state entering `_g_copyWithStats`: `self.shape`,
`self.atom`, `self._v_nrowsinbuf` (`maindim = 0` for a `CArray`, whose
`extdim` is `-1`). -/
structure SrcCArray where
  shape : List Nat
  atom : Atom
  nrowsinbuf : Nat
deriving DecidableEq

/-- Arguments with which `_g_copyWithStats` constructs the destination
`CArray` (`carray.py` lines 245–246): atom, shape, and chunkshape
(`none` — the source deliberately does not pass one). -/
structure DestCreateArgs where
  atom : Atom
  shape : List Nat
  chunkshape : Option (List Nat)
deriving DecidableEq

/-- An exception raised by a destination write `object[start3:stop3] = ...`
inside the copy loop. -/
inductive CopyErr
  | ioError
deriving DecidableEq

/-- The copy loop body: perform each buffered write in order; the first
exception aborts the loop and propagates. -/
def copyLoop (write : CopyStep → Except CopyErr Unit) :
    List CopyStep → Except CopyErr Unit
  | [] => .ok ()
  | s :: rest =>
    match write s with
    | .error e => .error e
    | .ok _ => copyLoop write rest

/-- Embedding of `CArray._g_copyWithStats` (`carray.py` lines 229–266) for a
normalised range (`_processRangeRead` is the identity there).  Mirrors the
source statement for statement: destination shape is the source shape with
the leading dimension replaced by `len(xrange(start, stop, step))`;
`self._v_convert` is set to `False`, the destination is built with
`atom=self.atom, shape=shape` and no chunkshape, the buffered loop runs, and
only after a normal loop exit is `self._v_convert` set back to `True` (the
source has no `try/finally`); `nbytes` is `product(self.shape) * itemsize`.
Returns the final value of the source's `_v_convert` flag paired with the
outcome (the `(object, nbytes)` pair on normal return, or the propagated
exception). -/
def gCopyWithStats (src : SrcCArray) (start stop step : Nat)
    (write : CopyStep → Except CopyErr Unit) :
    Bool × Except CopyErr (DestCreateArgs × Nat) :=
  let count := rangeLen start stop step
  let destShape := src.shape.set 0 count
  let vConvert := false
  let dest : DestCreateArgs :=
    { atom := src.atom, shape := destShape, chunkshape := none }
  match copyLoop write
      (copySteps start stop step src.nrowsinbuf (destShape.headD 0)) with
  | .error e => (vConvert, .error e)
  | .ok _ =>
    let nbytes := src.shape.prod * src.atom.itemsize
    (true, .ok (dest, nbytes))

/-- Values a group's backend mapping can hold, as far as
`HasChildren.__getitem__` (`core/group.py` lines 32–42) inspects them: a
sub-group, or a dataset carrying an optional `CLASS` attribute (`none`
models a dataset whose attribute dictionary lacks the key). -/
inductive BackendValue
  | group
  | dataset (classAttr : Option String)
deriving DecidableEq

/-- Typed wrappers the dispatch layer can return. -/
inductive NodeWrapper
  | groupNode
  | tableNode
  | arrayNode
deriving DecidableEq

/-- Exceptions of the dispatch layer. -/
inductive LookupErr
  | keyError
  | notImplemented
deriving DecidableEq

/-- Embedding of `HasChildren.__getitem__`: a backend `Group` is wrapped as
`Group`; a backend `Dataset` is dispatched on its `CLASS` attribute, with
`"TABLE" ↦ Table` and `"ARRAY" ↦ Array`; everything else falls through to
`raise NotImplementedError()`. -/
def hasChildrenGetItem (value : BackendValue) : Except LookupErr NodeWrapper :=
  match value with
  | .group => .ok .groupNode
  | .dataset none => .error .keyError
  | .dataset (some c) =>
    if c = "TABLE" then .ok .tableNode
    else if c = "ARRAY" then .ok .arrayNode
    else .error .notImplemented

/-- Argument forms `HasChildren.rename_node` distinguishes: a `Node`
instance (carrying a `.name`), a plain string name, or anything else. -/
inductive RenameArg
  | nodeArg (name : String)
  | strArg (name : String)
  | otherArg
deriving DecidableEq

/-- Result of a `rename_node` call: the backend `rename_node` invocations it
made (old name, new name — in order) and its outcome. -/
structure RenameResult where
  backendRenames : List (String × String)
  outcome : Except LookupErr Unit
deriving DecidableEq

/-- Embedding of `HasChildren.rename_node` (`core/group.py` lines 47–52):
for a `Node` argument the backend rename runs with `old.name`; for a string
argument it runs with the string; then — the `raise` is not on an `else`
branch — `NotImplementedError` is raised unconditionally. -/
def renameNode (old : RenameArg) (newName : String) : RenameResult :=
  match old with
  | .nodeArg n =>
    { backendRenames := [(n, newName)], outcome := .error .notImplemented }
  | .strArg n =>
    { backendRenames := [(n, newName)], outcome := .error .notImplemented }
  | .otherArg =>
    { backendRenames := [], outcome := .error .notImplemented }

/-! Arithmetic helper lemmas about ceiling division and window lists. -/

theorem cdiv_zero_left {k : Nat} (hk : 1 ≤ k) : cdiv 0 k = 0 := by
  unfold cdiv
  exact Nat.div_eq_of_lt (by omega)

theorem cdiv_of_pos {n k : Nat} (hk : 1 ≤ k) (hn : 1 ≤ n) :
    cdiv n k = (n - 1) / k + 1 := by
  unfold cdiv
  rw [show n + k - 1 = (n - 1) + k by omega, Nat.add_div_right _ hk]

theorem cdiv_mul {n a b : Nat} (ha : 1 ≤ a) (hb : 1 ≤ b) :
    cdiv n (a * b) = cdiv (cdiv n a) b := by
  rcases Nat.eq_zero_or_pos n with hn | hn
  · subst hn
    rw [cdiv_zero_left (Nat.mul_pos ha hb), cdiv_zero_left ha, cdiv_zero_left hb]
  · rw [cdiv_of_pos (Nat.mul_pos ha hb) hn, cdiv_of_pos ha hn,
      cdiv_of_pos hb (Nat.succ_le_succ (Nat.zero_le _)), Nat.succ_sub_one,
      Nat.div_div_eq_div_mul]

theorem cdiv_le_cdiv {m n : Nat} (k : Nat) (h : m ≤ n) : cdiv m k ≤ cdiv n k := by
  unfold cdiv
  exact Nat.div_le_div_right (by omega)

theorem cdiv_mul_self {k : Nat} (B : Nat) (hk : 1 ≤ k) : cdiv (k * B) k = B := by
  unfold cdiv
  rw [show k * B + k - 1 = k * B + (k - 1) by omega, Nat.mul_add_div hk,
    Nat.div_eq_of_lt (by omega), Nat.add_zero]

theorem ite_clip (x e : Nat) : (if x > e then e else x) = min x e := by
  by_cases h : x > e
  · rw [if_pos h, min_eq_right (Nat.le_of_lt h)]
  · rw [if_neg h, min_eq_left (Nat.le_of_not_lt h)]

theorem range_append_range' (a b : Nat) :
    List.range a ++ List.range' a b = List.range (a + b) := by
  rw [List.range_add, List.range'_eq_map_range]

theorem flatten_full_windows (B n : Nat) :
    ((List.range n).map (fun i => List.range' (i * B) B)).flatten
      = List.range (n * B) := by
  induction n with
  | zero => simp
  | succ n ih =>
    rw [List.range_succ, List.map_append, List.flatten_append, ih]
    simp only [List.map_cons, List.map_nil, List.flatten_cons, List.flatten_nil,
      List.append_nil]
    rw [Nat.succ_mul, range_append_range']

theorem flatten_windows_eq_range (B c : Nat) (hB : 1 ≤ B) :
    ((List.range (cdiv c B)).map
      (fun i => List.range' (i * B) (min ((i + 1) * B) c - i * B))).flatten
      = List.range c := by
  rcases Nat.eq_zero_or_pos c with hc | hc
  · subst hc
    rw [cdiv_zero_left hB]
    simp
  · rw [cdiv_of_pos hB hc]
    have hnB : (c - 1) / B * B ≤ c - 1 := Nat.div_mul_le_self _ _
    have hnBc : (c - 1) / B * B ≤ c := le_trans hnB (Nat.sub_le _ _)
    have hcub : c ≤ ((c - 1) / B + 1) * B := by
      have h := Nat.lt_div_mul_add (a := c - 1) hB
      rw [Nat.succ_mul]
      exact Nat.le_of_pred_lt h
    rw [List.range_succ, List.map_append, List.flatten_append]
    have hfull : (List.range ((c - 1) / B)).map
          (fun i => List.range' (i * B) (min ((i + 1) * B) c - i * B))
        = (List.range ((c - 1) / B)).map (fun i => List.range' (i * B) B) := by
      apply List.map_congr_left
      intro i hi
      have hi' : i + 1 ≤ (c - 1) / B := List.mem_range.mp hi
      have hle : (i + 1) * B ≤ c :=
        le_trans (Nat.mul_le_mul_right B hi') hnBc
      rw [min_eq_left hle, Nat.succ_mul, Nat.add_sub_cancel_left]
    rw [hfull, flatten_full_windows]
    simp only [List.map_cons, List.map_nil, List.flatten_cons, List.flatten_nil,
      List.append_nil]
    rw [min_eq_right hcub, range_append_range', Nat.add_sub_cancel' hnBc]

/-! Field-computation lemmas for the copy-loop iterations. -/

theorem copyStepAt_start2 (start stop step B ext s2 : Nat) :
    (copyStepAt start stop step B ext s2).start2 = s2 := rfl

theorem copyStepAt_stop2 (start stop step B ext s2 : Nat) :
    (copyStepAt start stop step B ext s2).stop2 =
      if s2 + step * B > stop then stop else s2 + step * B := rfl

theorem copyStepAt_start3 (start stop step B ext s2 : Nat) :
    (copyStepAt start stop step B ext s2).start3 = (s2 - start) / step := rfl

theorem copyStepAt_stop3 (start stop step B ext s2 : Nat) :
    (copyStepAt start stop step B ext s2).stop3 =
      if (s2 - start) / step + B > ext then ext
      else (s2 - start) / step + B := rfl

/-- C1: for a normalised range-copy with `step ≥ 1` and `nrowsinbuf ≥ 1`,
the destination windows `[start3, stop3)` produced by the buffered copy loop
of `_g_copyWithStats`, laid end to end in loop order, are exactly the
destination indices `0, 1, ..., len(range(start, stop, step)) - 1`: every
destination leading index is covered exactly once, in increasing order, with
no overlap and no gap. -/
theorem copy_dest_windows_partition (start stop step B : Nat)
    (hstep : 1 ≤ step) (hB : 1 ≤ B) :
    ((copySteps start stop step B (rangeLen start stop step)).map
      (fun s => List.range' s.start3 (s.stop3 - s.start3))).flatten
      = List.range (rangeLen start stop step) := by
  have hN : rangeLen start stop (step * B) = cdiv (rangeLen start stop step) B := by
    unfold rangeLen
    exact cdiv_mul hstep hB
  unfold copySteps pyRange
  rw [hN, List.map_map, List.map_map,
    ← flatten_windows_eq_range B (rangeLen start stop step) hB]
  congr 1
  apply List.map_congr_left
  intro i _hi
  simp only [Function.comp_apply]
  rw [copyStepAt_start3, copyStepAt_stop3]
  have hdiv : (start + i * (step * B) - start) / step = i * B := by
    rw [Nat.add_sub_cancel_left, show i * (step * B) = step * (i * B) by ring,
      Nat.mul_div_cancel_left _ hstep]
  rw [hdiv, ite_clip, add_one_mul]

/-- C5: every iteration of the copy loop reads a source window of at most
`nrowsinbuf` leading rows (`len(range(start2, stop2, step)) ≤ nrowsinbuf`)
and writes a destination window of at most `nrowsinbuf` rows
(`stop3 - start3 ≤ nrowsinbuf`), for every range and every destination
extent. -/
theorem copy_windows_bounded_by_nrowsinbuf (start stop step B ext : Nat)
    (hstep : 1 ≤ step) :
    ∀ s ∈ copySteps start stop step B ext,
      rangeLen s.start2 s.stop2 step ≤ B ∧ s.stop3 - s.start3 ≤ B := by
  intro s hs
  unfold copySteps at hs
  rcases List.mem_map.mp hs with ⟨s2, _hs2, rfl⟩
  constructor
  · rw [copyStepAt_start2, copyStepAt_stop2]
    have hle : (if s2 + step * B > stop then stop else s2 + step * B) - s2
        ≤ step * B := by
      by_cases h : s2 + step * B > stop
      · rw [if_pos h]
        omega
      · rw [if_neg h]
        omega
    exact le_trans (cdiv_le_cdiv step hle) (le_of_eq (cdiv_mul_self B hstep))
  · rw [copyStepAt_start3, copyStepAt_stop3]
    by_cases h : (s2 - start) / step + B > ext
    · rw [if_pos h]
      omega
    · rw [if_neg h]
      omega

/-- Witness for C1 at the concrete range `[1, 10)` with `step = 2`,
`nrowsinbuf = 2` (destination extent `len(range(1, 10, 2)) = 5`). -/
theorem copy_dest_windows_partition_witness :
    1 ≤ 2 ∧
    ((copySteps 1 10 2 2 (rangeLen 1 10 2)).map
      (fun s => List.range' s.start3 (s.stop3 - s.start3))).flatten
      = List.range (rangeLen 1 10 2) :=
  ⟨by decide, copy_dest_windows_partition 1 10 2 2 (by decide) (by decide)⟩

/-- Witness for C5 at the concrete range `[1, 10)` with `step = 2`,
`nrowsinbuf = 3`, destination extent `5`. -/
theorem copy_windows_bounded_by_nrowsinbuf_witness :
    1 ≤ 2 ∧ ∀ s ∈ copySteps 1 10 2 3 5,
      rangeLen s.start2 s.stop2 2 ≤ 3 ∧ s.stop3 - s.start3 ≤ 3 :=
  ⟨by decide, copy_windows_bounded_by_nrowsinbuf 1 10 2 3 5 (by decide)⟩

/-! Characterisation of a normally-completing `_g_copyWithStats` run. -/

theorem gCopyWithStats_ok (src : SrcCArray) (start stop step : Nat)
    (write : CopyStep → Except CopyErr Unit) (flag : Bool)
    (dest : DestCreateArgs) (n : Nat)
    (h : gCopyWithStats src start stop step write = (flag, .ok (dest, n))) :
    flag = true ∧
    dest = { atom := src.atom,
             shape := src.shape.set 0 (rangeLen start stop step),
             chunkshape := none } ∧
    n = src.shape.prod * src.atom.itemsize := by
  rcases hcl : copyLoop write
      (copySteps start stop step src.nrowsinbuf
        ((src.shape.set 0 (rangeLen start stop step)).headD 0)) with e | u
  · simp only [gCopyWithStats, hcl] at h
    exact Except.noConfusion (congrArg Prod.snd h)
  · simp only [gCopyWithStats, hcl, Prod.mk.injEq, Except.ok.injEq] at h
    exact ⟨h.1.symm, h.2.1.symm, h.2.2.symm⟩

/-- C2 (counterexample to the claim as stated): a copy whose very first
buffered write raises leaves the source's `_v_convert` flag at `False` —
`_g_copyWithStats` has no `try/finally`, so the flag is not restored on the
error path. -/
theorem convert_flag_not_restored_on_error :
    (gCopyWithStats ⟨[4], ⟨1, []⟩, 2⟩ 0 4 1 (fun _ => .error .ioError)).2
      = .error .ioError ∧
    (gCopyWithStats ⟨[4], ⟨1, []⟩, 2⟩ 0 4 1 (fun _ => .error .ioError)).1
      = false := by
  exact ⟨rfl, rfl⟩

/-- C2 (amended): `_v_convert` is disabled before the copy loop and
re-enabled only on normal completion; after `_g_copyWithStats` terminates,
the source's conversion flag is `True` exactly when no exception was raised,
and remains `False` when the copy raised part-way. -/
theorem convert_flag_tracks_normal_completion (src : SrcCArray)
    (start stop step : Nat) (write : CopyStep → Except CopyErr Unit) :
    (gCopyWithStats src start stop step write).1
      = (gCopyWithStats src start stop step write).2.isOk := by
  rcases hcl : copyLoop write
      (copySteps start stop step src.nrowsinbuf
        ((src.shape.set 0 (rangeLen start stop step)).headD 0)) with e | u
  · simp only [gCopyWithStats, hcl]
    rfl
  · simp only [gCopyWithStats, hcl]
    rfl

/-- C3: when the backend materialisation step (`self._createCArray`) raises,
`_g_create_common` invokes `self.close` exactly once, with `flush=0`, and
re-raises exactly the original backend error, unchanged. -/
theorem create_common_failure_closes_once_and_reraises
    (vcs : Option (List Nat)) (f : Unit → List Nat) (g : List Nat → Nat)
    (c : Except BackendErr Nat) (e : BackendErr) (h : c = .error e) :
    (gCreateCommon vcs f g c).outcome = .error (.backend e) ∧
    (gCreateCommon vcs f g c).closeFlushArgs = [false] := by
  subst h
  unfold gCreateCommon
  cases vcs <;> exact ⟨rfl, rfl⟩

/-- Witness for C3: a backend `create` failing with `diskFull` yields one
`close(flush=0)` call and the same error re-raised. -/
theorem create_common_failure_closes_once_and_reraises_witness :
    (Except.error .diskFull : Except BackendErr Nat) = .error .diskFull ∧
    (gCreateCommon (some [2]) (fun _ => [1]) (fun _ => 1)
        (.error .diskFull)).outcome = .error (.backend .diskFull) ∧
    (gCreateCommon (some [2]) (fun _ => [1]) (fun _ => 1)
        (.error .diskFull)).closeFlushArgs = [false] :=
  ⟨rfl, create_common_failure_closes_once_and_reraises (some [2])
    (fun _ => [1]) (fun _ => 1) (.error .diskFull) .diskFull rfl⟩

/-- C4: a normally-completing range-copy creates its destination with the
source's atom, no explicit chunkshape, and a shape of the same rank equal to
the source shape except that the leading dimension is
`len(range(start, stop, step))`. -/
theorem copy_dest_creation_args (src : SrcCArray) (start stop step : Nat)
    (write : CopyStep → Except CopyErr Unit) (flag : Bool)
    (dest : DestCreateArgs) (n : Nat) (hshape : src.shape ≠ [])
    (h : gCopyWithStats src start stop step write = (flag, .ok (dest, n))) :
    dest.atom = src.atom ∧ dest.chunkshape = none ∧
    dest.shape.length = src.shape.length ∧
    dest.shape.head? = some (rangeLen start stop step) ∧
    dest.shape.tail = src.shape.tail := by
  obtain ⟨-, hdest, -⟩ := gCopyWithStats_ok src start stop step write flag dest n h
  subst hdest
  obtain ⟨a, t, hs⟩ := List.exists_cons_of_ne_nil hshape
  rw [hs]
  exact ⟨rfl, rfl, by simp, rfl, rfl⟩

/-- Witness for C4 at a concrete copy of `range(0, 3, 1)` out of a source of
shape `[3, 2]`. -/
theorem copy_dest_creation_args_witness :
    ([3, 2] : List Nat) ≠ [] ∧
    gCopyWithStats ⟨[3, 2], ⟨4, []⟩, 2⟩ 0 3 1 (fun _ => .ok ())
      = (true, .ok (⟨⟨4, []⟩, [3, 2], none⟩, 24)) ∧
    (⟨⟨4, []⟩, [3, 2], none⟩ : DestCreateArgs).atom = ⟨4, []⟩ ∧
    (⟨⟨4, []⟩, [3, 2], none⟩ : DestCreateArgs).chunkshape = none ∧
    ((⟨⟨4, []⟩, [3, 2], none⟩ : DestCreateArgs).shape).length
      = ([3, 2] : List Nat).length ∧
    ((⟨⟨4, []⟩, [3, 2], none⟩ : DestCreateArgs).shape).head?
      = some (rangeLen 0 3 1) ∧
    ((⟨⟨4, []⟩, [3, 2], none⟩ : DestCreateArgs).shape).tail
      = ([3, 2] : List Nat).tail := by
  refine ⟨by decide, by decide, ?_, ?_, ?_, ?_, ?_⟩ <;>
    first
      | exact (copy_dest_creation_args ⟨[3, 2], ⟨4, []⟩, 2⟩ 0 3 1
          (fun _ => .ok ()) true ⟨⟨4, []⟩, [3, 2], none⟩ 24
          (by decide) (by decide)).1
      | exact (copy_dest_creation_args ⟨[3, 2], ⟨4, []⟩, 2⟩ 0 3 1
          (fun _ => .ok ()) true ⟨⟨4, []⟩, [3, 2], none⟩ 24
          (by decide) (by decide)).2.1
      | exact (copy_dest_creation_args ⟨[3, 2], ⟨4, []⟩, 2⟩ 0 3 1
          (fun _ => .ok ()) true ⟨⟨4, []⟩, [3, 2], none⟩ 24
          (by decide) (by decide)).2.2.1
      | exact (copy_dest_creation_args ⟨[3, 2], ⟨4, []⟩, 2⟩ 0 3 1
          (fun _ => .ok ()) true ⟨⟨4, []⟩, [3, 2], none⟩ 24
          (by decide) (by decide)).2.2.2.1
      | exact (copy_dest_creation_args ⟨[3, 2], ⟨4, []⟩, 2⟩ 0 3 1
          (fun _ => .ok ()) true ⟨⟨4, []⟩, [3, 2], none⟩ 24
          (by decide) (by decide)).2.2.2.2

/-- C6: a normally-completing range-copy returns, as its second component,
`nbytes = product(source shape) * atom.itemsize` — computed from the full
source shape, independent of the copied range. -/
theorem copy_returns_source_nbytes (src : SrcCArray) (start stop step : Nat)
    (write : CopyStep → Except CopyErr Unit) (flag : Bool)
    (dest : DestCreateArgs) (n : Nat)
    (h : gCopyWithStats src start stop step write = (flag, .ok (dest, n))) :
    n = src.shape.prod * src.atom.itemsize :=
  (gCopyWithStats_ok src start stop step write flag dest n h).2.2

/-- Witness for C6: copying `range(1, 3, 1)` out of a `[3, 2]`-shaped source
with itemsize `4` returns `nbytes = 3 * 2 * 4 = 24`. -/
theorem copy_returns_source_nbytes_witness :
    gCopyWithStats ⟨[3, 2], ⟨4, []⟩, 2⟩ 1 3 1 (fun _ => .ok ())
      = (true, .ok (⟨⟨4, []⟩, [2, 2], none⟩, 24)) ∧
    (24 : Nat) = ([3, 2] : List Nat).prod * 4 :=
  ⟨by decide, copy_returns_source_nbytes ⟨[3, 2], ⟨4, []⟩, 2⟩ 1 3 1
    (fun _ => .ok ()) true ⟨⟨4, []⟩, [2, 2], none⟩ 24 (by decide)⟩

/-! Properties of `pyMin`, used for the shape-validation claims. -/

theorem pyMin_le_of_mem : ∀ {l : List Nat} {x : Nat}, x ∈ l →
    ∃ m, pyMin l = some m ∧ m ≤ x := by
  intro l
  induction l with
  | nil => intro x hx; cases hx
  | cons a t ih =>
    intro x hx
    rcases List.mem_cons.mp hx with h | h
    · subst h
      cases ht : pyMin t with
      | none => exact ⟨x, by simp [pyMin, ht], Nat.le_refl x⟩
      | some m =>
        exact ⟨Nat.min x m, by simp [pyMin, ht], Nat.min_le_left x m⟩
    · rcases ih h with ⟨m, hm, hmx⟩
      exact ⟨Nat.min a m, by simp [pyMin, hm],
        le_trans (Nat.min_le_right a m) hmx⟩

/-- C7: when any dimension of `shape` is `< 1`, `_g_create` raises its
shape-validity `ValueError` before the backend `create` is ever reached: the
trace records zero backend `create` calls and zero planner calls. -/
theorem create_rejects_nonpositive_shape_before_backend
    (shape : List Nat) (vcs : Option (List Nat))
    (f : Unit → List Nat) (g : List Nat → Nat) (c : Except BackendErr Nat)
    (h : ∃ d ∈ shape, d < 1) :
    (gCreate shape vcs f g c).outcome = .error .shapeZeroDimValueError ∧
    (gCreate shape vcs f g c).backendCreateCalls = 0 ∧
    (gCreate shape vcs f g c).plannerCalls = 0 := by
  rcases h with ⟨d, hd, hd1⟩
  rcases pyMin_le_of_mem hd with ⟨m, hm, hmd⟩
  simp only [gCreate, hm]
  rw [if_pos (by omega)]
  exact ⟨rfl, rfl, rfl⟩

/-- Witness for C7 at the concrete shape `[3, 0, 2]`. -/
theorem create_rejects_nonpositive_shape_before_backend_witness :
    (∃ d ∈ ([3, 0, 2] : List Nat), d < 1) ∧
    (gCreate [3, 0, 2] none (fun _ => [1]) (fun _ => 1) (.ok 7)).outcome
      = .error .shapeZeroDimValueError ∧
    (gCreate [3, 0, 2] none (fun _ => [1]) (fun _ => 1) (.ok 7)).backendCreateCalls
      = 0 ∧
    (gCreate [3, 0, 2] none (fun _ => [1]) (fun _ => 1) (.ok 7)).plannerCalls
      = 0 :=
  ⟨⟨0, by decide, by decide⟩,
    create_rejects_nonpositive_shape_before_backend [3, 0, 2] none
      (fun _ => [1]) (fun _ => 1) (.ok 7) ⟨0, by decide, by decide⟩⟩

theorem carrayInitNew_rank_mismatch (atom : Atom) (s cs : List Nat)
    (hatom : atom.atomShape = []) (hrank : s.length ≠ cs.length) :
    carrayInitNew atom (some s) (some cs) = .error .rankMismatchValueError := by
  simp only [carrayInitNew, hatom, ne_eq, not_true_eq_false, if_false,
    ite_false, if_pos hrank]

/-- C8: supplying a `chunkshape` whose rank differs from `shape`'s rank
makes new-mode creation fail with the rank-mismatch `ValueError` in the
constructor, before any backend `create` call and before any chunk-geometry
(planner) computation. -/
theorem init_rejects_rank_mismatch_before_backend
    (atom : Atom) (s cs : List Nat)
    (f : Unit → List Nat) (g : List Nat → Nat) (c : Except BackendErr Nat)
    (hatom : atom.atomShape = []) (hrank : s.length ≠ cs.length) :
    (createNewCArray atom (some s) (some cs) f g c).outcome
      = .error .rankMismatchValueError ∧
    (createNewCArray atom (some s) (some cs) f g c).backendCreateCalls = 0 ∧
    (createNewCArray atom (some s) (some cs) f g c).plannerCalls = 0 := by
  simp [createNewCArray, carrayInitNew_rank_mismatch atom s cs hatom hrank]

/-- Witness for C8: `shape = [2, 3]` against `chunkshape = [2]`. -/
theorem init_rejects_rank_mismatch_before_backend_witness :
    (⟨4, []⟩ : Atom).atomShape = [] ∧
    ([2, 3] : List Nat).length ≠ ([2] : List Nat).length ∧
    (createNewCArray ⟨4, []⟩ (some [2, 3]) (some [2])
        (fun _ => [1]) (fun _ => 1) (.ok 7)).outcome
      = .error .rankMismatchValueError ∧
    (createNewCArray ⟨4, []⟩ (some [2, 3]) (some [2])
        (fun _ => [1]) (fun _ => 1) (.ok 7)).backendCreateCalls = 0 ∧
    (createNewCArray ⟨4, []⟩ (some [2, 3]) (some [2])
        (fun _ => [1]) (fun _ => 1) (.ok 7)).plannerCalls = 0 :=
  ⟨rfl, by decide,
    init_rejects_rank_mismatch_before_backend ⟨4, []⟩ [2, 3] [2]
      (fun _ => [1]) (fun _ => 1) (.ok 7) rfl (by decide)⟩

/-- C9 (counterexample to the claim as stated): a dataset whose stored
`CLASS` tag is `"CARRAY"` is not returned wrapped as a chunked-array entity
— `HasChildren.__getitem__` only recognises `"TABLE"` and `"ARRAY"`, so the
lookup raises `NotImplementedError`. -/
theorem getitem_carray_tag_not_wrapped :
    hasChildrenGetItem (.dataset (some "CARRAY"))
      = .error .notImplemented := by decide

/-- C9 (amended): `__getitem__` wraps a dataset tagged `"TABLE"` as a
`Table` and one tagged `"ARRAY"` as an `Array`; a dataset with any other tag
— including `"CARRAY"` — makes the lookup fail with `NotImplementedError`. -/
theorem getitem_dispatch_by_class_tag (c : String)
    (h1 : c ≠ "TABLE") (h2 : c ≠ "ARRAY") :
    hasChildrenGetItem (.dataset (some c)) = .error .notImplemented ∧
    hasChildrenGetItem (.dataset (some "TABLE")) = .ok .tableNode ∧
    hasChildrenGetItem (.dataset (some "ARRAY")) = .ok .arrayNode := by
  refine ⟨?_, by decide, by decide⟩
  simp only [hasChildrenGetItem, if_neg h1, if_neg h2]

/-- Witness for C9's amended dispatch at the concrete tag `"VLARRAY"`. -/
theorem getitem_dispatch_by_class_tag_witness :
    ("VLARRAY" : String) ≠ "TABLE" ∧ ("VLARRAY" : String) ≠ "ARRAY" ∧
    hasChildrenGetItem (.dataset (some "VLARRAY")) = .error .notImplemented ∧
    hasChildrenGetItem (.dataset (some "TABLE")) = .ok .tableNode ∧
    hasChildrenGetItem (.dataset (some "ARRAY")) = .ok .arrayNode :=
  ⟨by decide, by decide,
    getitem_dispatch_by_class_tag "VLARRAY" (by decide) (by decide)⟩

/-- C10: `rename_node` never returns normally — for a `Node` argument or a
string argument it performs the backend rename with the corresponding name
and then raises `NotImplementedError` unconditionally, so every caller
observes the error even when the rename was carried out. -/
theorem rename_node_always_raises (old : RenameArg) (oldName newName : String) :
    (renameNode old newName).outcome = .error .notImplemented ∧
    (renameNode (.nodeArg oldName) newName).backendRenames
      = [(oldName, newName)] ∧
    (renameNode (.strArg oldName) newName).backendRenames
      = [(oldName, newName)] := by
  cases old <;> exact ⟨rfl, rfl, rfl⟩

end PyTables
